import Mathlib

/-!
# Verification of git-auto-updater

Shallow embedding of the two source variants of git-auto-updater
(`src/unnamed/part_000`, the setTimeout/time-of-day variant, and
`src/lib/git-auto-updater.js`, the setInterval variant), together with
theorems settling the specification claims about them.

The embedding covers:
* the JavaScript numeric behavior relevant to `Number.parseInt`,
  `Math.min`, `Math.floor` and arithmetic on possibly-NaN values;
* `parseArguments`' handling of `--time`, `validateConfiguration` in both
  variants (including the `Path.basename(uri, '.git')` path derivation);
* `startCommand` in both variants (Node's `spawn` signature: an extra
  fourth argument is ignored, `.on('exit', f)` registers an observer);
* the update/check/schedule event loop of `part_000` as a labelled
  transition system (`stepE`) over states tracking the child-process
  handle and the number of outstanding one-shot timers.
-/

namespace GitAutoUpdater

/-- A JavaScript number as it occurs in this program: every value produced
here is either an integer or NaN (`Number.parseInt` returns an integer or
NaN; `Math.min`, `Math.floor`, `%`, `-`, `*`, `+` on such values again give
an integer or NaN). -/
inductive JSNum where
  | nan
  | int (n : Int)
deriving DecidableEq

/-- JS subtraction; NaN propagates. -/
def jsSub : JSNum → JSNum → JSNum
  | .int a, .int b => .int (a - b)
  | _, _ => .nan

/-- JS addition; NaN propagates. -/
def jsAdd : JSNum → JSNum → JSNum
  | .int a, .int b => .int (a + b)
  | _, _ => .nan

/-- JS multiplication; NaN propagates. -/
def jsMul : JSNum → JSNum → JSNum
  | .int a, .int b => .int (a * b)
  | _, _ => .nan

/-- `Math.min`; NaN if either argument is NaN. -/
def jsMin : JSNum → JSNum → JSNum
  | .int a, .int b => .int (min a b)
  | _, _ => .nan

/-- JS `>` comparison: false whenever an operand is NaN. -/
def jsGt : JSNum → JSNum → Bool
  | .int a, .int b => decide (a > b)
  | _, _ => false

/-- JS `===` on numbers: false whenever an operand is NaN. -/
def jsEqq : JSNum → JSNum → Bool
  | .int a, .int b => decide (a = b)
  | _, _ => false

/-- `Math.floor(a / d)` for a positive integer divisor `d`: floor division;
NaN propagates. -/
def jsMathFloorDiv (a : JSNum) (d : Int) : JSNum :=
  match a with
  | .int n => .int (Int.fdiv n d)
  | .nan => .nan

/-- JS `%` (truncated remainder, sign of the dividend) by an integer
divisor; NaN propagates. -/
def jsMod (a : JSNum) (d : Int) : JSNum :=
  match a with
  | .int n => .int (Int.tmod n d)
  | .nan => .nan

/-- Model of `Number.parseInt(s)` for decimal inputs: skip leading
whitespace, an optional sign, then the longest leading run of decimal
digits; NaN when that run is empty. (The hexadecimal `0x` form is not
modelled; no input considered here uses it.) -/
def parseIntJS (s : String) : JSNum :=
  let cs := s.toList.dropWhile Char.isWhitespace
  let signAndRest : Int × List Char :=
    match cs with
    | '-' :: rest => (-1, rest)
    | '+' :: rest => (1, rest)
    | _ => (1, cs)
  let digits := signAndRest.2.takeWhile Char.isDigit
  if digits.isEmpty then .nan
  else .int (signAndRest.1 *
    ((digits.foldl (fun acc c => acc * 10 + (c.toNat - 48)) 0 : Nat) : Int))

/-- The `conf.time` record built by `parseArguments`' `-t`/`--time` case:
`{ hours: ..., minutes: ... }` with JS-number fields. -/
structure TimeRec where
  hours : JSNum
  minutes : JSNum
deriving DecidableEq

/-- `parseArguments`' handling of `-t`/`--time ARG` (src/unnamed/part_000,
lines 95-101): `time = Number.parseInt(ARG)`, then
`hours = Math.min(Math.floor(time / 100), 23)` and
`minutes = Math.min(time % 100, 59)`. -/
def parseTimeOption (s : String) : TimeRec :=
  let time := parseIntJS s
  ⟨jsMin (jsMathFloorDiv time 100) (.int 23), jsMin (jsMod time 100) (.int 59)⟩

/-- JS falsiness of a possibly-null string: `null` and the empty string are
falsy. -/
def strFalsy : Option String → Bool
  | none => true
  | some s => s == ""

/-- Model of Node's `Path.basename(p, '.git')`: drop trailing slashes, take
the final path segment, and strip a trailing `.git` unless the whole
segment equals `.git` (Node keeps the extension when the basename equals
it). -/
def basenameGit (p : String) : String :=
  let noTrail := p.toList.reverse.dropWhile (fun c => c == '/')
  let baseRev := noTrail.takeWhile (fun c => c != '/')
  let base := baseRev.reverse
  if base.length > 4 && (baseRev.take 4 == ['t', 'i', 'g', '.']) then
    String.mk (base.take (base.length - 4))
  else
    String.mk base

/-- The mutable configuration object `conf` as far as validation is
concerned: `repository`, `path` (possibly-null strings), `frequency` (a JS
number: `Number.parseInt` of the `-f` argument, or the default 1440), and
`time` (null or the record built by the `-t` case; the record object is
always truthy, even when its fields are NaN). The lib variant has no
`time` field; its validation ignores this field. -/
structure RawConfig where
  repository : Option String
  path : Option String
  frequency : JSNum
  time : Option TimeRec
deriving DecidableEq

/-- `Number.isInteger(f) && f >= 1`: the frequency test of both variants,
written positively. `Number.isInteger(NaN)` is false; every non-NaN value
reaching `conf.frequency` here is an integer. -/
def intFreqValid : JSNum → Bool
  | .int n => decide (1 ≤ n)
  | .nan => false

/-- `validateConfiguration` of src/unnamed/part_000 (lines 116-132): derive
`path` from the repository URI when absent, reject when neither repository
nor path is given, reject when no time is set and the frequency is not a
positive integer. Returns the verdict together with the (possibly mutated)
configuration. -/
def validateConfiguration (c : RawConfig) : Bool × RawConfig :=
  let c :=
    if strFalsy c.path && !strFalsy c.repository then
      { c with path := some (basenameGit (c.repository.getD "")) }
    else c
  if strFalsy c.repository && strFalsy c.path then (false, c)
  else if c.time.isNone && !intFreqValid c.frequency then (false, c)
  else (true, c)

/-- `validateConfiguration` of src/lib/git-auto-updater.js (lines 105-121):
same path derivation, but the rejection test is
`!conf.repository || !conf.path`, and the frequency test is unconditional
(this variant has no `time` option). -/
def validateConfigurationLib (c : RawConfig) : Bool × RawConfig :=
  let c :=
    if strFalsy c.path && !strFalsy c.repository then
      { c with path := some (basenameGit (c.repository.getD "")) }
    else c
  if strFalsy c.repository || strFalsy c.path then (false, c)
  else if !intFreqValid c.frequency then (false, c)
  else (true, c)

/-- The startup check of part_000 (lines 200-204): when
`validateConfiguration` returns false the program prints usage and exits
with status 1; otherwise startup continues (`none`). -/
def startupExitCode (c : RawConfig) : Option Nat :=
  if (validateConfiguration c).1 then none else some 1

/-- The startup check of the lib variant (lines 164-168). -/
def startupExitCodeLib (c : RawConfig) : Option Nat :=
  if (validateConfigurationLib c).1 then none else some 1

/-- A command specification `{ name, args }` from the arguments after
`--`. -/
structure CommandSpec where
  name : String
  args : List String
deriving DecidableEq

/-- What a `startCommand` call produces, as far as the supervision contract
is concerned: whether the child inherits the supervisor's standard I/O
streams, and whether an exit observer clearing the stored handle was
registered on it. -/
structure SpawnedChild where
  stdioInherit : Bool
  exitObserverClearsHandle : Bool
deriving DecidableEq

/-- `startCommand` of src/unnamed/part_000 (lines 134-140): when a command
is configured, `spawn(name, args, { stdio: 'inherit' })` followed by
`commandProcess.on('exit', () => { commandProcess = null; })`, which does
register an exit observer that clears the handle. No command: no-op. -/
def startCommandSpawn : Option CommandSpec → Option SpawnedChild
  | some _ => some ⟨true, true⟩
  | none => none

/-- `startCommand` of src/lib/git-auto-updater.js (lines 123-128): the
clearing callback is passed as a fourth argument to `ChildProcess.spawn`,
which is not a parameter of Node's spawn API and is ignored, so no exit
observer is registered on the spawned child. No command: no-op. -/
def startCommandSpawnLib : Option CommandSpec → Option SpawnedChild
  | some _ => some ⟨true, false⟩
  | none => none

/-- `scheduleUpdateCheck`'s time-of-day delay computation
(src/unnamed/part_000, lines 177-196), on JS numbers exactly as written:
`hours`/`minutes` are the current wall-clock components; when
`hours > conf.time.hours || (minutes > conf.time.minutes && hours ===
conf.time.hours)` the CURRENT hours are decreased by 12; then
`delay = (conf.time.hours - hours) * 60 * 60 * 1000 +
(conf.time.minutes - minutes) * 60 * 1000`. -/
def scheduleDelayJS (t : TimeRec) (nowHours nowMinutes : JSNum) : JSNum :=
  let hours :=
    if jsGt nowHours t.hours || (jsGt nowMinutes t.minutes && jsEqq nowHours t.hours)
    then jsSub nowHours (.int 12) else nowHours
  jsAdd (jsMul (jsMul (jsMul (jsSub t.hours hours) (.int 60)) (.int 60)) (.int 1000))
        (jsMul (jsMul (jsSub t.minutes nowMinutes) (.int 60)) (.int 1000))

/-- Modelled from the spec's words, for comparison with `scheduleDelayJS`:
the claimed algorithm subtracts 12 from the TARGET hour component before
taking the difference (spec sections 4.3/9), the delay then being
`(target hours - now hours) * 3600000 + (target minutes - now minutes) *
60000`. -/
def scheduleDelaySpecClaim (t : TimeRec) (nowHours nowMinutes : JSNum) : JSNum :=
  let targetHours :=
    if jsGt nowHours t.hours || (jsGt nowMinutes t.minutes && jsEqq nowHours t.hours)
    then jsSub t.hours (.int 12) else t.hours
  jsAdd (jsMul (jsSub targetHours nowHours) (.int 3600000))
        (jsMul (jsSub t.minutes nowMinutes) (.int 60000))

/-- The configuration fields the steady-state loop of part_000 reads:
the optional command specification and the termination signal name. -/
structure Config where
  command : Option CommandSpec
  signal : String
deriving DecidableEq

/-- The mutable loop state of part_000: `child = some n` means
`commandProcess` holds a live child on which `n` additional
`'exit'`-listeners re-entering `update` have been registered (the
handle-clearing listener installed by `startCommand` is always present on
a tracked child); `child = none` means `commandProcess === null`.
`timers` counts the outstanding one-shot `setTimeout` timers. -/
structure SysState where
  child : Option Nat
  timers : Nat
deriving DecidableEq

/-- Externally visible actions a synchronous turn of the loop performs, in
order: `git fetch`, `commandProcess.kill(signal)`, `git pull`, spawning
the configured command, and arming one `setTimeout` for the next check. -/
inductive Act where
  | fetch
  | signalChild (sig : String)
  | pull
  | startChild (c : CommandSpec)
  | schedule
deriving DecidableEq

/-- `startCommand` (part_000, lines 134-140) as a state transformer: spawn
the configured command (tracking a fresh handle with no update-listeners)
or do nothing. -/
def startCommand (cfg : Config) (s : SysState) : SysState × List Act :=
  match cfg.command with
  | some c => ({ s with child := some 0 }, [Act.startChild c])
  | none => (s, [])

/-- `update` (part_000, lines 142-156): with a live child, register one
more exit listener that clears the handle and re-enters `update`, send the
configured signal, and return (the rest of the cycle is deferred until the
exit is observed). With no child: `git pull`, restart the command, arm the
next check. -/
def update (cfg : Config) (s : SysState) : SysState × List Act :=
  match s.child with
  | some n => ({ s with child := some (n + 1) }, [Act.signalChild cfg.signal])
  | none =>
      let r := startCommand cfg s
      ({ r.1 with timers := r.1.timers + 1 }, Act.pull :: (r.2 ++ [Act.schedule]))

/-- `checkForUpdates` (part_000, lines 158-175): `git fetch`, compare the
current and upstream revisions (the comparison outcome `upToDate` is an
input from the version-control gateway); when equal, arm the next check;
otherwise run `update`. -/
def checkForUpdates (cfg : Config) (upToDate : Bool) (s : SysState) :
    SysState × List Act :=
  if upToDate then ({ s with timers := s.timers + 1 }, [Act.fetch, Act.schedule])
  else
    let r := update cfg s
    (r.1, Act.fetch :: r.2)

/-- Run the `n` update-re-entering exit listeners registered on a child
that just exited; each listener body sets `commandProcess = null` and then
calls `update()` (part_000, lines 144-147), in registration order. -/
def runExitListeners (cfg : Config) : Nat → SysState → SysState × List Act
  | 0, s => (s, [])
  | n + 1, s =>
      let r := update cfg { s with child := none }
      let r2 := runExitListeners cfg n r.1
      (r2.1, r.2 ++ r2.2)

/-- The synchronous turn run when the tracked child (carrying `n`
update-listeners) exits: the `startCommand` listener clears the handle,
then each update-listener clears it again and re-enters `update`. -/
def onChildExited (cfg : Config) (n : Nat) (s : SysState) : SysState × List Act :=
  runExitListeners cfg n { s with child := none }

/-- The asynchronous events the environment can deliver: a one-shot timer
fires (running `checkForUpdates`, with the gateway's revision comparison
outcome), or the tracked child process exits. -/
inductive Event where
  | fire (upToDate : Bool)
  | exited
deriving DecidableEq

/-- One event-loop turn of part_000: a timer can fire only when one is
outstanding (consuming it), and a child-exit can be observed only while a
child is tracked. Returns the new state and the actions the turn
performed, or `none` when the event is not enabled. -/
def stepE (cfg : Config) (s : SysState) : Event → Option (SysState × List Act)
  | .fire u =>
      if s.timers = 0 then none
      else some (checkForUpdates cfg u { s with timers := s.timers - 1 })
  | .exited =>
      match s.child with
      | none => none
      | some n => some (onChildExited cfg n s)

/-- Startup of part_000 (lines 254-257): after initial provisioning,
`startCommand()` then `scheduleUpdateCheck()` (arming the first timer). -/
def initState (cfg : Config) : SysState × List Act :=
  let r := startCommand cfg ⟨none, 0⟩
  ({ r.1 with timers := 1 }, r.2 ++ [Act.schedule])

/-- The states the part_000 loop can reach from startup under any sequence
of enabled events and gateway outcomes. -/
inductive Reachable (cfg : Config) : SysState → Prop where
  | init : Reachable cfg (initState cfg).1
  | step {s s' : SysState} {e : Event} {acts : List Act} (h : Reachable cfg s)
      (hs : stepE cfg s e = some (s', acts)) : Reachable cfg s'

/-- Number of `schedule` actions in a turn's action list. -/
def schedCount : List Act → Nat
  | [] => 0
  | Act.schedule :: rest => schedCount rest + 1
  | _ :: rest => schedCount rest

/-- The loop state of the lib variant: the tracked child (as in
`SysState`) plus the single repeating interval armed at startup by
`setInterval` (src/lib/git-auto-updater.js, lines 213-214), which persists
across turns. -/
structure LibLoopState where
  child : Option Nat
  intervalArmed : Bool
deriving DecidableEq

/-- `update` of the lib variant (lines 130-143): identical to part_000's
except that the completion path does not reschedule (the interval
persists). -/
def updateLib (cfg : Config) (s : LibLoopState) : LibLoopState × List Act :=
  match s.child with
  | some n => ({ s with child := some (n + 1) }, [Act.signalChild cfg.signal])
  | none =>
      match cfg.command with
      | some c => ({ s with child := some 0 }, [Act.pull, Act.startChild c])
      | none => (s, [Act.pull])

/-- `checkForUpdates` of the lib variant (lines 145-160): fetch and
compare; when equal do nothing further (the armed interval delivers the
next check); otherwise run `updateLib`. -/
def checkForUpdatesLib (cfg : Config) (upToDate : Bool) (s : LibLoopState) :
    LibLoopState × List Act :=
  if upToDate then (s, [Act.fetch])
  else
    let r := updateLib cfg s
    (r.1, Act.fetch :: r.2)

/-- Protocol invariant of the part_000 loop: either the coordinator is
idle with exactly one one-shot timer armed and the tracked child (if any)
carrying no update-listener, or it is awaiting the exit of a signaled
child, with no timer armed. -/
def TimerInv (s : SysState) : Prop :=
  ((s.child = none ∨ s.child = some 0) ∧ s.timers = 1) ∨
  (s.child = some 1 ∧ s.timers = 0)

/-- Every state the part_000 loop reaches satisfies `TimerInv`. -/
theorem reachable_timer_inv {cfg : Config} {s : SysState} (h : Reachable cfg s) :
    TimerInv s := by
  induction h with
  | init =>
      cases hc : cfg.command <;> simp [TimerInv, initState, startCommand, hc]
  | step h hs ih =>
      rename_i s s' e acts
      rcases ih with ⟨hch | hch, ht⟩ | ⟨hch, ht⟩
      · have hseq : s = ⟨none, 1⟩ := by cases s; simp_all
        subst hseq
        cases e with
        | fire u =>
            cases u <;> cases hc : cfg.command <;>
              simp [stepE, checkForUpdates, update, startCommand, hc] at hs <;>
              simp [TimerInv, ← hs.1]
        | exited => simp [stepE] at hs
      · have hseq : s = ⟨some 0, 1⟩ := by cases s; simp_all
        subst hseq
        cases e with
        | fire u =>
            cases u <;>
              simp [stepE, checkForUpdates, update] at hs <;>
              simp [TimerInv, ← hs.1]
        | exited =>
            simp [stepE, onChildExited, runExitListeners] at hs
            simp [TimerInv, ← hs.1]
      · have hseq : s = ⟨some 1, 0⟩ := by cases s; simp_all
        subst hseq
        cases e with
        | fire u => simp [stepE] at hs
        | exited =>
            cases hc : cfg.command <;>
              simp [stepE, onChildExited, runExitListeners, update, startCommand, hc] at hs <;>
              simp [TimerInv, ← hs.1]

/-- With no command configured, the part_000 loop never tracks a child. -/
theorem reachable_no_child {cfg : Config} {s : SysState} (hc : cfg.command = none)
    (h : Reachable cfg s) : s.child = none := by
  induction h with
  | init => simp [initState, startCommand, hc]
  | step h hs ih =>
      rename_i s s' e acts
      obtain ⟨c, t⟩ := s
      simp only at ih
      subst ih
      cases e with
      | fire u =>
          cases u <;>
            by_cases ht : t = 0 <;>
            simp [stepE, checkForUpdates, update, startCommand, hc, ht] at hs <;>
            simp [← hs.1]
      | exited => simp [stepE] at hs

/-- Claim C1: in an update cycle where the revisions differ and a child is
live, the check turn only fetches and signals the child (deferring the
rest), `update` emits a pull only from states with no live child handle
(so the child is never running while pull executes), and the turn that
observes the child's exit performs the pull first, restarts the command
only after the pull, then reschedules; while awaiting the exit no timer
can fire, so the pull waits for the exit to be observed. -/
theorem update_quiesces_child_before_pull (cfg : Config) (k m j : Nat) :
    stepE cfg ⟨some 0, k + 1⟩ (.fire false) =
      some (⟨some 1, k⟩, [Act.fetch, Act.signalChild cfg.signal]) ∧
    update cfg ⟨some m, j⟩ = (⟨some (m + 1), j⟩, [Act.signalChild cfg.signal]) ∧
    stepE cfg ⟨some 1, k⟩ .exited =
      some (⟨cfg.command.map fun _ => 0, k + 1⟩,
        Act.pull :: ((cfg.command.map Act.startChild).toList ++ [Act.schedule])) ∧
    stepE cfg ⟨some 1, 0⟩ (.fire true) = none ∧
    stepE cfg ⟨some 1, 0⟩ (.fire false) = none := by
  refine ⟨?_, rfl, ?_, rfl, rfl⟩
  · simp [stepE, checkForUpdates, update]
  · cases hc : cfg.command <;>
      simp [stepE, onChildExited, runExitListeners, update, startCommand, hc]

/-- Claim C2, counterexample: at target time 01:00 and current time 02:00
the code computes a delay of 39,600,000 ms (it subtracts 12 from the
CURRENT hour), while the claimed formula (subtract 12 from the TARGET hour
before taking the difference) gives -46,800,000 ms; the two disagree. -/
theorem delay_formula_counterexample :
    scheduleDelayJS ⟨.int 1, .int 0⟩ (.int 2) (.int 0) = .int 39600000 ∧
    scheduleDelaySpecClaim ⟨.int 1, .int 0⟩ (.int 2) (.int 0) = .int (-46800000) ∧
    scheduleDelayJS ⟨.int 1, .int 0⟩ (.int 2) (.int 0) ≠
      scheduleDelaySpecClaim ⟨.int 1, .int 0⟩ (.int 2) (.int 0) := by
  refine ⟨by decide, by decide, by decide⟩

/-- Claim C2, amended: when the current time is past the target (current
hours greater than target hours, or equal hours with current minutes
greater than target minutes), 12 is subtracted from the CURRENT hour
component, so the delay equals (target hours - now hours + 12) * 3,600,000
plus (target minutes - now minutes) * 60,000 ms; otherwise the delay is
(target hours - now hours) * 3,600,000 plus (target minutes - now
minutes) * 60,000 ms. -/
theorem scheduleDelay_shifts_now_hours (th tm nh nm : Int) :
    scheduleDelayJS ⟨.int th, .int tm⟩ (.int nh) (.int nm) =
      .int ((if nh > th ∨ (nm > tm ∧ nh = th) then th - nh + 12 else th - nh) * 3600000
            + (tm - nm) * 60000) := by
  by_cases hc : nh > th ∨ (nm > tm ∧ nh = th)
  · have h1 : (jsGt (.int nh) (.int th) ||
        (jsGt (.int nm) (.int tm) && jsEqq (.int nh) (.int th))) = true := by
      simp only [jsGt, jsEqq, Bool.or_eq_true, Bool.and_eq_true, decide_eq_true_eq]
      exact hc
    simp only [scheduleDelayJS, h1, if_true, if_pos hc, jsSub, jsAdd, jsMul]
    congr 1
    ring
  · have h1 : (jsGt (.int nh) (.int th) ||
        (jsGt (.int nm) (.int tm) && jsEqq (.int nh) (.int th))) = false := by
      simp only [jsGt, jsEqq, Bool.or_eq_false_iff, Bool.and_eq_false_iff]
      push_neg at hc
      refine ⟨by simpa using hc.1, ?_⟩
      by_cases hg : nm > tm
      · exact Or.inr (by simpa using fun h => (hc.2 hg h).elim)
      · exact Or.inl (by simpa using hg)
    simp only [scheduleDelayJS, h1, Bool.false_eq_true, if_false, if_neg hc, jsSub,
      jsAdd, jsMul]
    congr 1
    ring

/-- Claim C3, counterexample: a configuration giving a local path but no
repository URI is rejected by the lib variant's `validateConfiguration`
(its test is `!conf.repository || !conf.path`), so the program exits with
status 1 there, contradicting the claim that a path without a repository
URI is not rejected on that ground. -/
theorem path_without_repository_rejected_by_lib :
    (validateConfigurationLib ⟨none, some "repo", .int 1440, none⟩).1 = false ∧
    startupExitCodeLib ⟨none, some "repo", .int 1440, none⟩ = some 1 :=
  ⟨by decide, by decide⟩

/-- Claim C3, amended: when neither a repository URI nor a local path is
given, both variants' `validateConfiguration` return false and the program
exits with status 1; in the part_000 variant a configuration with either
one of the two (and a valid schedule) is accepted; in the lib variant a
path without a repository URI is rejected, since that variant requires the
repository URI as well. -/
theorem neither_repository_nor_path_rejected (c d e : RawConfig)
    (hcr : strFalsy c.repository = true) (hcp : strFalsy c.path = true)
    (hd : strFalsy d.repository = false ∨ strFalsy d.path = false)
    (hds : d.time.isSome = true ∨ intFreqValid d.frequency = true)
    (her : strFalsy e.repository = true) (hep : strFalsy e.path = false) :
    (validateConfiguration c).1 = false ∧ startupExitCode c = some 1 ∧
    (validateConfigurationLib c).1 = false ∧ startupExitCodeLib c = some 1 ∧
    (validateConfiguration d).1 = true ∧
    (validateConfigurationLib e).1 = false := by
  refine ⟨?_, ?_, ?_, ?_, ?_, ?_⟩
  · simp [validateConfiguration, hcr, hcp]
  · simp [startupExitCode, validateConfiguration, hcr, hcp]
  · simp [validateConfigurationLib, hcr, hcp]
  · simp [startupExitCodeLib, validateConfigurationLib, hcr, hcp]
  · obtain ⟨dr, dp, df, dt⟩ := d
    simp only at hd hds
    rcases hd with hd | hd <;> rcases hds with hds | hds <;>
      cases hp : strFalsy dp <;>
      cases dt <;>
      simp_all [validateConfiguration]
  · simp [validateConfigurationLib, her, hep]

/-- Claim C3, witness for the amended theorem at concrete configurations:
neither given (rejected, exit 1, both variants), repository URI only
(accepted by part_000), path only (rejected by the lib variant). -/
theorem neither_repository_nor_path_rejected_witness :
    (validateConfiguration ⟨none, none, .int 1440, none⟩).1 = false ∧
    startupExitCode ⟨none, none, .int 1440, none⟩ = some 1 ∧
    (validateConfigurationLib ⟨none, none, .int 1440, none⟩).1 = false ∧
    startupExitCodeLib ⟨none, none, .int 1440, none⟩ = some 1 ∧
    (validateConfiguration ⟨some "https://example.com/x.git", none, .int 1440,
        none⟩).1 = true ∧
    (validateConfigurationLib ⟨none, some "repo", .int 1440, none⟩).1 = false :=
  neither_repository_nor_path_rejected
    ⟨none, none, .int 1440, none⟩
    ⟨some "https://example.com/x.git", none, .int 1440, none⟩
    ⟨none, some "repo", .int 1440, none⟩
    (by decide) (by decide) (Or.inl (by decide)) (Or.inr (by decide))
    (by decide) (by decide)

/-- Claim C4: when the current revision equals the upstream revision, the
part_000 `checkForUpdates` only fetches and arms the next one-shot check
(no signal, no pull, no restart; the tracked child is untouched), and the
lib variant's `checkForUpdates` only fetches, leaving its state (including
the armed repeating interval that delivers the next check) unchanged. -/
theorem up_to_date_check_no_side_effects (cfg : Config) (s : SysState)
    (sl : LibLoopState) :
    checkForUpdates cfg true s =
      ({ s with timers := s.timers + 1 }, [Act.fetch, Act.schedule]) ∧
    checkForUpdatesLib cfg true sl = (sl, [Act.fetch]) := ⟨rfl, rfl⟩

/-- Claim C5: after the check turn signals a live child (emitting only a
fetch and the signal: no pull, no restart, no scheduling), the state has
no timer outstanding, so no timer can ever fire again; the only enabled
event is the child's exit, and if it never occurs the cycle never
completes (no timeout or forced kill exists in the model, as in the
code). -/
theorem signaled_child_never_exits_stalls (cfg : Config) (s : SysState)
    (hlive : s.child = some 0) (ht : s.timers = 1) :
    stepE cfg s (.fire false) =
      some (⟨some 1, 0⟩, [Act.fetch, Act.signalChild cfg.signal]) ∧
    stepE cfg ⟨some 1, 0⟩ (.fire true) = none ∧
    stepE cfg ⟨some 1, 0⟩ (.fire false) = none := by
  obtain ⟨c, t⟩ := s
  simp only at hlive ht
  subst hlive ht
  exact ⟨by simp [stepE, checkForUpdates, update], rfl, rfl⟩

/-- Claim C5, witness: the stalling behavior at a concrete configuration
supervising "server" with the default SIGINT signal. -/
theorem signaled_child_never_exits_stalls_witness :
    stepE ⟨some ⟨"server", []⟩, "SIGINT"⟩ ⟨some 0, 1⟩ (.fire false) =
      some (⟨some 1, 0⟩, [Act.fetch, Act.signalChild "SIGINT"]) ∧
    stepE ⟨some ⟨"server", []⟩, "SIGINT"⟩ ⟨some 1, 0⟩ (.fire true) = none ∧
    stepE ⟨some ⟨"server", []⟩, "SIGINT"⟩ ⟨some 1, 0⟩ (.fire false) = none :=
  signaled_child_never_exits_stalls _ _ rfl rfl

/-- Claim C6, counterexample: a reachable moment after startup with zero
one-shot timers outstanding — after a check finds differing revisions and
signals the live child, the loop awaits the exit with no timer armed, so
it is not the case that exactly one timer is outstanding at every
moment. -/
theorem awaiting_exit_has_no_timer_outstanding :
    Reachable ⟨some ⟨"server", []⟩, "SIGINT"⟩ ⟨some 1, 0⟩ ∧
    SysState.timers ⟨some 1, 0⟩ = 0 := by
  have h0 : Reachable ⟨some ⟨"server", []⟩, "SIGINT"⟩
      (initState ⟨some ⟨"server", []⟩, "SIGINT"⟩).1 := Reachable.init
  have h1 : stepE ⟨some ⟨"server", []⟩, "SIGINT"⟩
      (initState ⟨some ⟨"server", []⟩, "SIGINT"⟩).1 (Event.fire false) =
      some (⟨some 1, 0⟩, [Act.fetch, Act.signalChild "SIGINT"]) := by decide
  exact ⟨Reachable.step h0 h1, rfl⟩

/-- Claim C6, amended (part_000 variant): in every reachable state either
the loop is idle with exactly one one-shot timer outstanding, or it is
awaiting a signaled child's exit with none; each event turn arms at most
one timer, and arms exactly one precisely when it completes a check cycle
(an up-to-date check, a check with no child to stop, or the exit turn that
finishes a deferred update); startup arms exactly one. The lib variant
instead arms a single repeating interval at startup. -/
theorem one_timer_outstanding_when_idle (cfg : Config) (s s' : SysState)
    (e : Event) (acts : List Act) (h : Reachable cfg s)
    (hs : stepE cfg s e = some (s', acts)) :
    (((s.child = none ∨ s.child = some 0) ∧ s.timers = 1) ∨
      (s.child = some 1 ∧ s.timers = 0)) ∧
    schedCount acts ≤ 1 ∧
    (schedCount acts = 1 ↔
      (e = Event.fire true ∨ (e = Event.fire false ∧ s.child = none) ∨
        (e = Event.exited ∧ s.child = some 1))) ∧
    schedCount (initState cfg).2 = 1 := by
  refine ⟨reachable_timer_inv h, ?_⟩
  have hshape := reachable_timer_inv h
  rcases hshape with ⟨hch | hch, ht⟩ | ⟨hch, ht⟩
  · have hseq : s = ⟨none, 1⟩ := by cases s; simp_all
    subst hseq
    cases e with
    | fire u =>
        cases u <;> cases hc : cfg.command <;>
          simp [stepE, checkForUpdates, update, startCommand, hc] at hs <;>
          obtain ⟨hs1, hs2⟩ := hs <;> subst hs2 <;>
          simp [schedCount, initState, startCommand, hc]
    | exited => simp [stepE] at hs
  · have hseq : s = ⟨some 0, 1⟩ := by cases s; simp_all
    subst hseq
    cases e with
    | fire u =>
        cases u <;> cases hc : cfg.command <;>
          simp [stepE, checkForUpdates, update] at hs <;>
          obtain ⟨hs1, hs2⟩ := hs <;> subst hs2 <;>
          simp [schedCount, initState, startCommand, hc]
    | exited =>
        cases hc : cfg.command <;>
          simp [stepE, onChildExited, runExitListeners] at hs <;>
          obtain ⟨hs1, hs2⟩ := hs <;> subst hs2 <;>
          simp [schedCount, initState, startCommand, hc]
  · have hseq : s = ⟨some 1, 0⟩ := by cases s; simp_all
    subst hseq
    cases e with
    | fire u => simp [stepE] at hs
    | exited =>
        cases hc : cfg.command <;>
          simp [stepE, onChildExited, runExitListeners, update, startCommand, hc] at hs <;>
          obtain ⟨hs1, hs2⟩ := hs <;> subst hs2 <;>
          simp [schedCount, initState, startCommand, hc]

/-- Claim C6, witness for the amended theorem: the startup state with one
timer armed, taking an up-to-date check turn, which arms exactly one
timer again. -/
theorem one_timer_outstanding_when_idle_witness :
    (((SysState.child ⟨some 0, 1⟩ = none ∨ SysState.child ⟨some 0, 1⟩ = some 0) ∧
        SysState.timers ⟨some 0, 1⟩ = 1) ∨
      (SysState.child ⟨some 0, 1⟩ = some 1 ∧ SysState.timers ⟨some 0, 1⟩ = 0)) ∧
    schedCount [Act.fetch, Act.schedule] ≤ 1 ∧
    (schedCount [Act.fetch, Act.schedule] = 1 ↔
      (Event.fire true = Event.fire true ∨
        (Event.fire true = Event.fire false ∧ SysState.child ⟨some 0, 1⟩ = none) ∨
        (Event.fire true = Event.exited ∧ SysState.child ⟨some 0, 1⟩ = some 1))) ∧
    schedCount (initState ⟨some ⟨"server", []⟩, "SIGINT"⟩).2 = 1 :=
  one_timer_outstanding_when_idle ⟨some ⟨"server", []⟩, "SIGINT"⟩ ⟨some 0, 1⟩
    ⟨some 0, 1⟩ (Event.fire true) [Act.fetch, Act.schedule] Reachable.init (by decide)

/-- Claim C7: part_000's `startCommand` launches the child with inherited
standard I/O and registers an exit observer clearing the stored handle,
but the lib variant passes the clearing callback as an ignored fourth
argument to `spawn`, registering no exit observer, so its handle is never
cleared when the child terminates on its own; with no command, both are
no-ops. -/
theorem lib_spawn_registers_no_exit_observer :
    startCommandSpawn (some ⟨"server", []⟩) = some ⟨true, true⟩ ∧
    startCommandSpawnLib (some ⟨"server", []⟩) = some ⟨true, false⟩ ∧
    startCommandSpawn none = none ∧ startCommandSpawnLib none = none :=
  ⟨rfl, rfl, rfl, rfl⟩

/-- Claim C8: for a `--time` argument parsing to a nonnegative number (as
every HHMM digit string does), the stored hour component is the floor of
the value divided by 100 clamped by min with 23, the minute component is
the value modulo 100 clamped by min with 59, and both lie in range:
hour in [0,23] and minute in [0,59]. -/
theorem parsed_time_components_clamped (s : String) (n : Nat)
    (h : parseIntJS s = .int (n : Int)) :
    (parseTimeOption s).hours = .int (min ((n / 100 : Nat) : Int) 23) ∧
    (parseTimeOption s).minutes = .int (min ((n % 100 : Nat) : Int) 59) ∧
    0 ≤ min ((n / 100 : Nat) : Int) 23 ∧ min ((n / 100 : Nat) : Int) 23 ≤ 23 ∧
    0 ≤ min ((n % 100 : Nat) : Int) 59 ∧ min ((n % 100 : Nat) : Int) 59 ≤ 59 := by
  have hd : jsMathFloorDiv (.int (n : Int)) 100 = .int ((n / 100 : Nat) : Int) := by
    simp only [jsMathFloorDiv]
    rw [show ((n / 100 : Nat) : Int) = Int.fdiv (n : Int) ((100 : Nat) : Int) from
      Int.ofNat_fdiv n 100]
    rfl
  have hm : jsMod (.int (n : Int)) 100 = .int ((n % 100 : Nat) : Int) := rfl
  refine ⟨?_, ?_, ?_, min_le_right _ _, ?_, min_le_right _ _⟩
  · simp [parseTimeOption, h, hd, jsMin]
  · simp [parseTimeOption, h, hm, jsMin]
  · exact le_min (Int.ofNat_nonneg _) (by norm_num)
  · exact le_min (Int.ofNat_nonneg _) (by norm_num)

/-- Claim C8, witness: the out-of-range input `--time 2575` parses to 2575
and is clamped to hour 23 and minute 59. -/
theorem parsed_time_components_clamped_witness :
    (parseTimeOption "2575").hours = .int (min ((2575 / 100 : Nat) : Int) 23) ∧
    (parseTimeOption "2575").minutes = .int (min ((2575 % 100 : Nat) : Int) 59) ∧
    0 ≤ min ((2575 / 100 : Nat) : Int) 23 ∧ min ((2575 / 100 : Nat) : Int) 23 ≤ 23 ∧
    0 ≤ min ((2575 % 100 : Nat) : Int) 59 ∧ min ((2575 % 100 : Nat) : Int) 59 ≤ 59 :=
  parsed_time_components_clamped "2575" 2575 (by decide)

/-- Claim C9: with no command configured, `startCommand` is a no-op, no
reachable state of the loop ever tracks a child, and `update` from any
reachable state performs the pull and reschedules without signaling or
starting any process. -/
theorem no_command_update_pull_only (cfg : Config) (s t : SysState)
    (hc : cfg.command = none) (hr : Reachable cfg s) :
    startCommand cfg t = (t, []) ∧
    s.child = none ∧
    update cfg s = (⟨none, s.timers + 1⟩, [Act.pull, Act.schedule]) := by
  have hn := reachable_no_child hc hr
  refine ⟨by simp [startCommand, hc], hn, ?_⟩
  obtain ⟨c, ti⟩ := s
  simp only at hn
  subst hn
  simp [update, startCommand, hc]

/-- Claim C9, witness: the command-less configuration at its startup
state. -/
theorem no_command_update_pull_only_witness :
    startCommand ⟨none, "SIGINT"⟩ ⟨none, 1⟩ = (⟨none, 1⟩, []) ∧
    SysState.child ⟨none, 1⟩ = none ∧
    update ⟨none, "SIGINT"⟩ ⟨none, 1⟩ = (⟨none, 2⟩, [Act.pull, Act.schedule]) :=
  no_command_update_pull_only ⟨none, "SIGINT"⟩ ⟨none, 1⟩ ⟨none, 1⟩ rfl Reachable.init

/-- Claim C10: the non-numeric argument `--time abc` yields a time record
with NaN hours and NaN minutes; `validateConfiguration` nevertheless
returns true because the record's presence skips the frequency check (the
same configuration with no time record is rejected, its frequency being
NaN); and the scheduling delay computed from the NaN record is NaN. -/
theorem nan_time_bypasses_frequency_check :
    (parseTimeOption "abc").hours = JSNum.nan ∧
    (parseTimeOption "abc").minutes = JSNum.nan ∧
    (validateConfiguration ⟨some "https://example.com/x.git", none, JSNum.nan,
        some (parseTimeOption "abc")⟩).1 = true ∧
    (validateConfiguration ⟨some "https://example.com/x.git", none, JSNum.nan,
        none⟩).1 = false ∧
    scheduleDelayJS (parseTimeOption "abc") (.int 2) (.int 0) = JSNum.nan := by
  refine ⟨by decide, by decide, by decide, by decide, by decide⟩

end GitAutoUpdater
